import Mathlib

/-!
ruby-minisat: the solving session of `ext/minisat/minisat.c`.

A shallow embedding of the C extension (`minisat.c`) and of its C++ wrapper
(`minisat-wrap.cpp`).  Ruby objects are values of `VALUE`; the `csolver`
structs behind the solver objects live in a heap indexed by the solver object;
an `rb_raise` is an `Except.error` returned together with the heap as it was
at the raise.  The MiniSat engine (`core/Solver.h`) is not part of the
sources and is a parameter of every wrapper.
-/

namespace MiniSat

/-! ## C `int` -/

/-- Largest value of a C `int`. -/
def INT_MAX : Int := 2147483647

/-- Value of an `int` expression whose mathematical value is `x`
(two's complement, 32 bits). -/
def wrapInt (x : Int) : Int := (x + 2147483648) % 4294967296 - 2147483648

/-! ## Result codes (`minisat.c` 42-45) -/

/-- Values of `csolver.result`. -/
inductive Result
  | SATISFIED
  | NOT_SOLVED_YET
  | UNSATISFIABLE
  | UNSATISFIABLE_UNDER_ASSUMPTIONS
  deriving DecidableEq, Repr

/-- The `#define`d integer of each result code. -/
def Result.code : Result → Int
  | .SATISFIED => 0
  | .NOT_SOLVED_YET => 1
  | .UNSATISFIABLE => 2
  | .UNSATISFIABLE_UNDER_ASSUMPTIONS => 3

/-! ## Ruby values -/

/-- Struct `cvariable`: the payload of a Variable or Literal object. `solver`
is the owning solver object. -/
structure cvariable where
  value : Int
  solver : Nat
  deriving DecidableEq, Repr

/-- The two classes whose instances carry a `cvariable`. -/
inductive Klass
  | rb_cVariable
  | rb_cLiteral
  deriving DecidableEq, Repr

/-- Ruby objects as far as the extension distinguishes them. `data` is a
`T_DATA` object whose `dfree` is `value_free`; `solver` is a solver object,
named by its address; `object` is any other object, with its class name. -/
inductive VALUE
  | Qfalse
  | Qtrue
  | Qnil
  | num (n : Int)
  | data (klass : Klass) (cval : cvariable)
  | solver (rslv : Nat)
  | array (elems : List VALUE)
  | object (classname : String)

/-- Exceptions raised by the extension, with their message. -/
inductive RbError
  | rb_eRuntimeError (msg : String)
  | rb_eTypeError (msg : String)
  | rb_eArgError (msg : String)
  deriving DecidableEq, Repr

/-- Host function `rb_obj_classname`. -/
def rb_obj_classname : VALUE → String
  | .Qfalse => "FalseClass"
  | .Qtrue => "TrueClass"
  | .Qnil => "NilClass"
  | .num _ => "Integer"
  | .data .rb_cVariable _ => "MiniSat::Variable"
  | .data .rb_cLiteral _ => "MiniSat::Literal"
  | .solver _ => "MiniSat::Solver"
  | .array _ => "Array"
  | .object c => c

/-- Host function `rb_convert_type(rcls, T_ARRAY, "Array", "to_ary")` on
objects that do not define `to_ary`: an Array converts to itself, anything
else is a TypeError (message in the form of current Ruby). -/
def rb_convert_type_ary (rcls : VALUE) : Except RbError (List VALUE) :=
  match rcls with
  | .array elems => .ok elems
  | v => .error (.rb_eTypeError ("no implicit conversion of " ++ rb_obj_classname v ++ " into Array"))

/-! ## The engine -/

/-- MiniSat `lbool`. -/
inductive lbool
  | l_True
  | l_False
  | l_Undef
  deriving DecidableEq, Repr

/-- MiniSat `Lit`. -/
structure Lit where
  x : Int
  deriving DecidableEq, Repr

/-- Modelled from the spec: `mkLit` of MiniSat's `SolverTypes.h`, which the
sources only call.  The spec's encoding scheme is "literal value is
`2*variable_index + polarity_bit`, polarity_bit = 0 for true-asserting, 1 for
false-asserting"; the sum is an `int`. -/
def mkLit (var : Int) (sign : Bool) : Lit :=
  ⟨wrapInt (2 * var + (if sign then 1 else 0))⟩

/-- Modelled from the spec: `toInt` of `SolverTypes.h`, the encoded value of
a literal. -/
def toInt (p : Lit) : Int := p.x

/-- Modelled from the spec: `toLit` of `SolverTypes.h`, the literal with a
given encoded value. -/
def toLit (i : Int) : Lit := ⟨i⟩

/-- Modelled from the spec: decoding of a literal, "the exact inverse of
encoding": variable `x div 2` and polarity bit `x mod 2`. -/
def decode (x : Int) : Int × Int := (x / 2, x % 2)

/-- The methods of `Minisat::Solver` that the wrappers call, over an engine
state `σ`. -/
structure Solver (σ : Type) where
  create : σ
  newVar : σ → Int × σ
  addClause : σ → List Lit → σ
  okay : σ → Bool
  model : σ → Int → lbool
  solve : σ → List Lit → Bool × σ
  simplify : σ → σ
  nVars : σ → Int
  nClauses : σ → Int

/-! ## `minisat-wrap.cpp` -/

/-- `minisat-wrap.cpp` 43-45. -/
def wrap_lit_pos_var (v : Int) : Int := toInt (mkLit v false)

/-- `minisat-wrap.cpp` 47-49. -/
def wrap_lit_neg_var (v : Int) : Int := toInt (mkLit v true)

/-- `minisat-wrap.cpp` 53-55. -/
def wrap_solver_new {σ : Type} (E : Solver σ) : σ := E.create

/-- `minisat-wrap.cpp` 61-63. -/
def wrap_solver_new_var {σ : Type} (E : Solver σ) (slv : σ) : Int × σ := E.newVar slv

/-- `minisat-wrap.cpp` 65-70: the answer is `okay()` after `addClause`. -/
def wrap_solver_add_clause {σ : Type} (E : Solver σ) (slv : σ) (lits : List Int) : Int × σ :=
  let lit_vec := lits.map toLit
  let slv1 := E.addClause slv lit_vec
  (if E.okay slv1 then 1 else 0, slv1)

/-- `minisat-wrap.cpp` 72-75. -/
def wrap_solver_ref_var {σ : Type} (E : Solver σ) (slv : σ) (var : Int) : Int :=
  let b := E.model slv var
  if b = lbool.l_False then 0 else if b = lbool.l_True then 1 else 2

/-- `minisat-wrap.cpp` 77-81. -/
def wrap_solver_solve {σ : Type} (E : Solver σ) (slv : σ) (lits : List Int) : Int × σ :=
  let lit_vec := lits.map toLit
  let r := E.solve slv lit_vec
  (if r.1 then 1 else 0, r.2)

/-- `minisat-wrap.cpp` 83-86. -/
def wrap_solver_simplify {σ : Type} (E : Solver σ) (slv : σ) : Int × σ :=
  let slv1 := E.simplify slv
  (if E.okay slv1 then 1 else 0, slv1)

/-- `minisat-wrap.cpp` 88-90. -/
def wrap_solver_var_size {σ : Type} (E : Solver σ) (slv : σ) : Int := E.nVars slv

/-- `minisat-wrap.cpp` 92-94. -/
def wrap_solver_clause_size {σ : Type} (E : Solver σ) (slv : σ) : Int := E.nClauses slv

/-! ## `minisat.c` -/

/-- Struct `csolver`. -/
structure csolver (σ : Type) where
  solver : σ
  result : Result
  clause_count : Int

/-- The `csolver` behind each solver object (`Data_Get_Struct`). -/
abbrev Heap (σ : Type) := Nat → csolver σ

/-- Outcome of a method call: the returned object or the exception raised,
and the heap afterwards. -/
abbrev Outcome (σ : Type) := Except RbError VALUE × Heap σ

/-- `minisat.c` 60-77; a result that matches no `case` passes. -/
def check_model_available (result : Result) (check_only_unsatisfied : Bool) : Except RbError Unit :=
  match result with
  | .NOT_SOLVED_YET =>
    if !check_only_unsatisfied then .error (.rb_eRuntimeError "not solved yet") else .ok ()
  | .UNSATISFIABLE => .error (.rb_eRuntimeError "unsatisfied")
  | .UNSATISFIABLE_UNDER_ASSUMPTIONS =>
    if !check_only_unsatisfied then .error (.rb_eRuntimeError "unsatisfied under assumption")
    else .ok ()
  | .SATISFIED => .ok ()

/-- `minisat.c` 99-111, on the payload of the receiving Variable. -/
def variable_pos (cvar : cvariable) : VALUE :=
  .data .rb_cLiteral { value := wrap_lit_pos_var cvar.value, solver := cvar.solver }

/-- `minisat.c` 120-132, on the payload of the receiving Variable. -/
def variable_neg (cvar : cvariable) : VALUE :=
  .data .rb_cLiteral { value := wrap_lit_neg_var cvar.value, solver := cvar.solver }

/-- `minisat.c` 142-156, on the payload of the receiving Variable; the state
consulted is that of the solver the Variable records. -/
def variable_value {σ : Type} (E : Solver σ) (h : Heap σ) (cvar : cvariable) : Outcome σ :=
  let cslv := h cvar.solver
  match check_model_available cslv.result false with
  | .error e => (.error e, h)
  | .ok _ =>
    match wrap_solver_ref_var E cslv.solver cvar.value with
    | 0 => (.ok .Qfalse, h)
    | 1 => (.ok .Qtrue, h)
    | _ => (.ok .Qnil, h)

/-- `minisat.c` 158-180, the loop of `convert_lits`: the literals written to
`lits`, or the exception raised at the first item that is refused. -/
def convert_lits (argv : List VALUE) (rslv : Nat) : Except RbError (List Int) :=
  match argv with
  | [] => .ok []
  | rval :: rest =>
    match rval with
    | .data klass cval =>
      if cval.solver ≠ rslv then
        .error (.rb_eArgError "Variable or Literal of different solver")
      else
        match convert_lits rest rslv with
        | .error e => .error e
        | .ok lits =>
          .ok ((if klass = Klass.rb_cVariable then wrap_lit_pos_var cval.value else cval.value)
            :: lits)
    | v =>
      .error (.rb_eTypeError
        ("wrong argument type " ++ rb_obj_classname v ++ " (expected Variable or Literal)"))

/-- `minisat.c` 191-201; `Data_Make_Struct` zero-fills the struct, so the
clause counter starts at 0. -/
def solver_alloc {σ : Type} (E : Solver σ) : csolver σ :=
  { solver := wrap_solver_new E, result := .NOT_SOLVED_YET, clause_count := 0 }

/-- `minisat.c` 211-227. -/
def solver_new_var {σ : Type} (E : Solver σ) (h : Heap σ) (rslv : Nat) : Outcome σ :=
  let cslv := h rslv
  match check_model_available cslv.result true with
  | .error e => (.error e, h)
  | .ok _ =>
    let r := wrap_solver_new_var E cslv.solver
    (.ok (.data .rb_cVariable { value := r.1, solver := rslv }),
      Function.update h rslv { cslv with solver := r.2, result := .NOT_SOLVED_YET })

/-- `minisat.c` 242-259; `clause_count++` is an `int` increment. -/
def solver_add_clause {σ : Type} (E : Solver σ) (h : Heap σ) (argv : List VALUE) (rslv : Nat) :
    Outcome σ :=
  let cslv := h rslv
  match convert_lits argv rslv with
  | .error e => (.error e, h)
  | .ok lits =>
    let r := wrap_solver_add_clause E cslv.solver lits
    if r.1 = 0 then
      (.ok (.solver rslv), Function.update h rslv { cslv with solver := r.2, result := .UNSATISFIABLE })
    else
      (.ok (.solver rslv), Function.update h rslv
        { solver := r.2, result := .NOT_SOLVED_YET, clause_count := wrapInt (cslv.clause_count + 1) })

/-- `minisat.c` 272-282, the method `<<`. -/
def solver_add_clause_2 {σ : Type} (E : Solver σ) (h : Heap σ) (rslv : Nat) (rcls : VALUE) :
    Outcome σ :=
  match rcls with
  | .data _ _ => solver_add_clause E h [rcls] rslv
  | _ =>
    match rb_convert_type_ary rcls with
    | .error e => (.error e, h)
    | .ok elems => solver_add_clause E h elems rslv

/-- `minisat.c` 292-311, the method `[]`; the owner of `rvar` is not looked at. -/
def solver_ref_var {σ : Type} (E : Solver σ) (h : Heap σ) (rslv : Nat) (rvar : VALUE) : Outcome σ :=
  let cslv := h rslv
  match rvar with
  | .data .rb_cVariable cvar =>
    match check_model_available cslv.result false with
    | .error e => (.error e, h)
    | .ok _ =>
      match wrap_solver_ref_var E cslv.solver cvar.value with
      | 0 => (.ok .Qfalse, h)
      | 1 => (.ok .Qtrue, h)
      | _ => (.ok .Qnil, h)
  | v =>
    (.error (.rb_eTypeError ("wrong argument type " ++ rb_obj_classname v ++ " (expected Variable)")),
      h)

/-- `minisat.c` 321-338. -/
def solver_solve {σ : Type} (E : Solver σ) (h : Heap σ) (argv : List VALUE) (rslv : Nat) :
    Outcome σ :=
  let cslv := h rslv
  match convert_lits argv rslv with
  | .error e => (.error e, h)
  | .ok lits =>
    let r := wrap_solver_solve E cslv.solver lits
    if r.1 ≠ 0 then
      (.ok .Qtrue, Function.update h rslv { cslv with solver := r.2, result := .SATISFIED })
    else
      (.ok .Qfalse, Function.update h rslv
        { cslv with
          solver := r.2
          result := if argv.length = 0 then .UNSATISFIABLE else .UNSATISFIABLE_UNDER_ASSUMPTIONS })

/-- `minisat.c` 349-362. -/
def solver_simplify {σ : Type} (E : Solver σ) (h : Heap σ) (rslv : Nat) : Outcome σ :=
  let cslv := h rslv
  match check_model_available cslv.result false with
  | .error e => (.error e, h)
  | .ok _ =>
    let r := wrap_solver_simplify E cslv.solver
    if r.1 = 0 then
      (.ok .Qfalse, Function.update h rslv { cslv with solver := r.2, result := .UNSATISFIABLE })
    else
      (.ok .Qtrue, Function.update h rslv { cslv with solver := r.2 })

/-- `minisat.c` 371-374. -/
def solver_simplify_db {σ : Type} (E : Solver σ) (h : Heap σ) (rslv : Nat) : Outcome σ :=
  solver_simplify E h rslv

/-- `minisat.c` 383-390. -/
def solver_var_size {σ : Type} (E : Solver σ) (h : Heap σ) (rslv : Nat) : Outcome σ :=
  (.ok (.num (wrap_solver_var_size E (h rslv).solver)), h)

/-- `minisat.c` 399-406. -/
def solver_clause_size {σ : Type} (_E : Solver σ) (h : Heap σ) (rslv : Nat) : Outcome σ :=
  (.ok (.num (h rslv).clause_count), h)

/-- `minisat.c` 458-465. -/
def solver_solved_p {σ : Type} (_E : Solver σ) (h : Heap σ) (rslv : Nat) : Outcome σ :=
  (.ok (if (h rslv).result ≠ .NOT_SOLVED_YET then .Qtrue else .Qfalse), h)

/-- `minisat.c` 474-481. -/
def solver_satisfied_p {σ : Type} (_E : Solver σ) (h : Heap σ) (rslv : Nat) : Outcome σ :=
  (.ok (if (h rslv).result = .SATISFIED then .Qtrue else .Qfalse), h)

/-! ## Method calls and runs -/

/-- A call of one of the methods registered by `Init_minisat` that read or
write a `csolver` (all but `to_s`), with its receiver and arguments. The
receiver of `value` is a Variable, given by its payload. -/
inductive Op
  | new_var (rslv : Nat)
  | add_clause (rslv : Nat) (argv : List VALUE)
  | add_clause_2 (rslv : Nat) (rcls : VALUE)
  | ref_var (rslv : Nat) (rvar : VALUE)
  | solve (rslv : Nat) (argv : List VALUE)
  | simplify (rslv : Nat)
  | simplify_db (rslv : Nat)
  | var_size (rslv : Nat)
  | clause_size (rslv : Nat)
  | solved_p (rslv : Nat)
  | satisfied_p (rslv : Nat)
  | value (cvar : cvariable)

/-- Dispatch of a call to the C function registered for the method. -/
def step {σ : Type} (E : Solver σ) (h : Heap σ) : Op → Outcome σ
  | .new_var rslv => solver_new_var E h rslv
  | .add_clause rslv argv => solver_add_clause E h argv rslv
  | .add_clause_2 rslv rcls => solver_add_clause_2 E h rslv rcls
  | .ref_var rslv rvar => solver_ref_var E h rslv rvar
  | .solve rslv argv => solver_solve E h argv rslv
  | .simplify rslv => solver_simplify E h rslv
  | .simplify_db rslv => solver_simplify_db E h rslv
  | .var_size rslv => solver_var_size E h rslv
  | .clause_size rslv => solver_clause_size E h rslv
  | .solved_p rslv => solver_solved_p E h rslv
  | .satisfied_p rslv => solver_satisfied_p E h rslv
  | .value cvar => variable_value E h cvar

/-- Heap after a sequence of calls; a call that raises leaves the heap as it
was at the raise and the run goes on. -/
def run {σ : Type} (E : Solver σ) (h : Heap σ) : List Op → Heap σ
  | [] => h
  | op :: ops => run E (step E h op).2 ops

/-- Heap in which every solver object is freshly allocated. -/
def fresh {σ : Type} (E : Solver σ) : Heap σ := fun _ => solver_alloc E

/-- A Variable or Literal object of solver `rslv`. -/
def isHandleOf (rslv : Nat) : VALUE → Bool
  | .data _ cval => cval.solver = rslv
  | _ => false

/-- A Variable or Literal object of any solver. -/
def isHandle : VALUE → Bool
  | .data _ _ => true
  | _ => false

/-- The literal that a handle stands for in a clause: the positive literal of
a Variable, the stored value of a Literal. -/
def litOf : VALUE → Int
  | .data .rb_cVariable cval => wrap_lit_pos_var cval.value
  | .data .rb_cLiteral cval => cval.value
  | _ => 0

/-- Receiver and argument list of a call of `add_clause` or `<<`. -/
def clauseCall : Op → Option (Nat × List VALUE)
  | .add_clause rslv argv => some (rslv, argv)
  | .add_clause_2 rslv (.data k c) => some (rslv, [.data k c])
  | .add_clause_2 rslv (.array elems) => some (rslv, elems)
  | _ => none

/-- The call is an `add_clause` / `<<` on `rslv` whose clause reached the
engine and for which the engine reported the database still consistent. -/
def reportedConsistent {σ : Type} (E : Solver σ) (h : Heap σ) (rslv : Nat) (op : Op) : Bool :=
  match clauseCall op with
  | some (r, argv) =>
    r = rslv &&
      (match convert_lits argv r with
       | .ok lits => E.okay (E.addClause (h r).solver (lits.map toLit))
       | .error _ => false)
  | none => false

/-- Number of calls of a run counted by `reportedConsistent`. -/
def acceptedClauses {σ : Type} (E : Solver σ) (h : Heap σ) (rslv : Nat) : List Op → Nat
  | [] => 0
  | op :: ops =>
    (if reportedConsistent E h rslv op then 1 else 0) + acceptedClauses E (step E h op).2 rslv ops

/-! ## Two engines for concrete runs -/

/-- State of the scripted engine: the answers still to give, the flag read by
`okay`, the number of variables and the model. -/
structure Script where
  tape : List Bool
  ok : Bool
  nvars : Int
  mdl : List lbool
  deriving DecidableEq, Repr

/-- An engine that answers `addClause`, `solve` and `simplify` from a tape
(an exhausted tape answers `true`) and whose model is fixed. -/
def scripted (tape : List Bool) (mdl : List lbool) : Solver Script where
  create := { tape := tape, ok := true, nvars := 0, mdl := mdl }
  newVar s := (s.nvars, { s with nvars := s.nvars + 1 })
  addClause s _ := { s with tape := s.tape.tail, ok := s.tape.headD true }
  okay s := s.ok
  model s v := s.mdl.getD v.toNat lbool.l_Undef
  solve s _ := (s.tape.headD true, { s with tape := s.tape.tail })
  simplify s := { s with tape := s.tape.tail, ok := s.tape.headD true }
  nVars s := s.nvars
  nClauses _ := 0

/-- State of the naive engine. -/
structure Naive where
  nvars : Nat
  clauses : List (List Int)
  ok : Bool
  mdl : List Bool
  deriving DecidableEq, Repr

/-- Truth of the encoded literal `x` under the assignment `a`. -/
def Naive.litTrue (a : List Bool) (x : Int) : Bool :=
  (a.getD (x / 2).toNat false) != (x % 2 == 1)

/-- All assignments to `n` variables. -/
def Naive.assignments : Nat → List (List Bool)
  | 0 => [[]]
  | n + 1 => (Naive.assignments n).flatMap fun a => [false :: a, true :: a]

/-- First assignment to `n` variables that satisfies all clauses of `cs`. -/
def Naive.search (n : Nat) (cs : List (List Int)) : Option (List Bool) :=
  (Naive.assignments n).find? fun a => cs.all fun c => c.any (Naive.litTrue a)

/-- The complement of an encoded literal. -/
def Naive.neg (x : Int) : Int := if x % 2 = 0 then x + 1 else x - 1

/-- A small complete engine with MiniSat's behaviour at the interface: a
clause all of whose literals are refuted by unit clauses makes the database
inconsistent for good, as does a failed search without assumptions; an
inconsistent database refuses every clause and every search. -/
def naive : Solver Naive where
  create := { nvars := 0, clauses := [], ok := true, mdl := [] }
  newVar s := (s.nvars, { s with nvars := s.nvars + 1, mdl := [] })
  addClause s lits :=
    if !s.ok then s
    else
      let c := lits.map Lit.x
      if c.all (fun x => s.clauses.contains [Naive.neg x]) then { s with ok := false }
      else { s with clauses := c :: s.clauses }
  okay s := s.ok
  model s v :=
    match s.mdl.get? v.toNat with
    | some true => lbool.l_True
    | some false => lbool.l_False
    | none => lbool.l_Undef
  solve s assumps :=
    if !s.ok then (false, s)
    else
      match Naive.search s.nvars (s.clauses ++ assumps.map fun l => [l.x]) with
      | some a => (true, { s with mdl := a })
      | none => (false, if assumps.isEmpty then { s with ok := false } else s)
  simplify s := s
  nVars s := s.nvars
  nClauses s := s.clauses.length

/-- The exception `convert_lits` raises at an item it refuses. -/
def refusal (x : VALUE) : RbError :=
  if isHandle x then .rb_eArgError "Variable or Literal of different solver"
  else .rb_eTypeError ("wrong argument type " ++ rb_obj_classname x ++ " (expected Variable or Literal)")

/-- Variable 0 of solver 0, its two literals, and a Variable of solver 1. -/
def var0 : VALUE := .data .rb_cVariable ⟨0, 0⟩

def pos0 : VALUE := variable_pos ⟨0, 0⟩

def neg0 : VALUE := variable_neg ⟨0, 0⟩

def foreign0 : VALUE := .data .rb_cVariable ⟨0, 1⟩

/-- Solver 0 after `new_var`, with the naive engine. -/
def oneVar : Heap Naive := run naive (fresh naive) [.new_var 0]

/-- Solver 0 after `v = new_var; add_clause(v); add_clause(-v)`, with the naive
engine: the second clause is refuted by the first. -/
def refuted : Heap Naive :=
  run naive (fresh naive) [.new_var 0, .add_clause 0 [var0], .add_clause 0 [neg0]]

/-- Solver 0 after `v = new_var; add_clause(v); solve(-v)`, with the naive
engine. -/
def refutedUnder : Heap Naive :=
  run naive (fresh naive) [.new_var 0, .add_clause 0 [var0], .solve 0 [neg0]]

/-- An engine that reports the first clause inconsistent and answers `true`
from then on. -/
def fickleEngine : Solver Script := scripted [false, true] []

/-- Solver 0 after an `add_clause` that `fickleEngine` reports inconsistent. -/
def fickleRefuted : Heap Script := run fickleEngine (fresh fickleEngine) [.add_clause 0 []]

/-- Solver 0 after `v = new_var; add_clause(v); add_clause(-v); solve(v)`, with
the naive engine. -/
def refutedThenAssumed : Heap Naive := run naive refuted [.solve 0 [var0]]

/-- Solver 0 after `v = new_var` and 2147483647 calls `add_clause(v)`, with the
naive engine. -/
def fullCounter : Heap Naive :=
  run naive (fresh naive) (.new_var 0 :: List.replicate 2147483647 (.add_clause 0 [var0]))

/-- The database of solver 0 is consistent and holds only copies of the unit
clause of variable 0. -/
def onlyUnit (h : Heap Naive) : Prop :=
  (h 0).solver.ok = true ∧ ∀ c ∈ (h 0).solver.clauses, c = [0]

/-! ## General facts -/

theorem wrapInt_of_range (x : Int) (h0 : -2147483648 ≤ x) (h1 : x ≤ 2147483647) :
    wrapInt x = x := by
  unfold wrapInt
  omega

theorem convert_lits_valid (rslv : Nat) (argv : List VALUE)
    (hv : argv.all (isHandleOf rslv) = true) :
    convert_lits argv rslv = .ok (argv.map litOf) := by
  induction argv with
  | nil => rfl
  | cons x xs ih =>
    simp only [List.all_cons, Bool.and_eq_true] at hv
    obtain ⟨hx, hxs⟩ := hv
    cases x with
    | data k c =>
      have hc : c.solver = rslv := by simpa [isHandleOf] using hx
      cases k <;> simp [convert_lits, hc, ih hxs, litOf]
    | _ => simp [isHandleOf] at hx

theorem convert_lits_find (rslv : Nat) (argv : List VALUE) :
    convert_lits argv rslv =
      match argv.find? (fun v => !isHandleOf rslv v) with
      | none => .ok (argv.map litOf)
      | some x => .error (refusal x) := by
  induction argv with
  | nil => rfl
  | cons x xs ih =>
    cases x with
    | data k c =>
      by_cases hc : c.solver = rslv
      · have hx : (!isHandleOf rslv (.data k c)) = false := by simp [isHandleOf, hc]
        rw [List.find?_cons, hx]
        generalize xs.find? (fun v => !isHandleOf rslv v) = o at ih ⊢
        cases o <;> cases k <;> simp [convert_lits, hc, ih, litOf]
      · simp [convert_lits, hc, List.find?_cons, isHandleOf, refusal, isHandle]
    | _ => simp [convert_lits, List.find?_cons, isHandleOf, refusal, isHandle, rb_obj_classname]

theorem wrapInt_idem (x : Int) : wrapInt (wrapInt x) = wrapInt x := by
  unfold wrapInt
  omega

theorem solver_ref_var_heap {σ : Type} (E : Solver σ) (h : Heap σ) (r : Nat) (rvar : VALUE) :
    (solver_ref_var E h r rvar).2 = h := by
  unfold solver_ref_var
  dsimp only
  split
  · split
    · rfl
    · split <;> rfl
  · rfl

theorem variable_value_heap {σ : Type} (E : Solver σ) (h : Heap σ) (cvar : cvariable) :
    (variable_value E h cvar).2 = h := by
  unfold variable_value
  dsimp only
  split
  · rfl
  · split <;> rfl

/-- Clause counter of any solver after an `add_clause` on `r`. -/
theorem solver_add_clause_count {σ : Type} (E : Solver σ) (h : Heap σ) (argv : List VALUE)
    (r rslv : Nat) :
    ((solver_add_clause E h argv r).2 rslv).clause_count =
      if reportedConsistent E h rslv (.add_clause r argv) then wrapInt ((h rslv).clause_count + 1)
      else (h rslv).clause_count := by
  cases hc : convert_lits argv r with
  | error e => simp [solver_add_clause, reportedConsistent, clauseCall, hc]
  | ok lits =>
    by_cases hr : r = rslv
    · subst hr
      cases hk : E.okay (E.addClause (h r).solver (lits.map toLit)) <;>
        simp [solver_add_clause, reportedConsistent, clauseCall, wrap_solver_add_clause, hc, hk]
    · have hr1 : rslv ≠ r := fun hx => hr hx.symm
      cases hk : E.okay (E.addClause (h r).solver (lits.map toLit)) <;>
        simp [solver_add_clause, reportedConsistent, clauseCall, wrap_solver_add_clause, hc, hk,
          hr, Function.update_noteq hr1]

/-- Clause counter of any solver after any call. -/
theorem step_clause_count {σ : Type} (E : Solver σ) (h : Heap σ) (rslv : Nat) (op : Op) :
    ((step E h op).2 rslv).clause_count =
      if reportedConsistent E h rslv op then wrapInt ((h rslv).clause_count + 1)
      else (h rslv).clause_count := by
  cases op with
  | add_clause r argv => exact solver_add_clause_count E h argv r rslv
  | add_clause_2 r rcls =>
    cases rcls with
    | data k c => exact solver_add_clause_count E h [.data k c] r rslv
    | array elems => exact solver_add_clause_count E h elems r rslv
    | _ => simp [step, solver_add_clause_2, rb_convert_type_ary, reportedConsistent, clauseCall]
  | new_var r =>
    cases hc : check_model_available (h r).result true with
    | error e => simp [step, solver_new_var, reportedConsistent, clauseCall, hc]
    | ok u =>
      by_cases hr : rslv = r
      · subst hr; simp [step, solver_new_var, reportedConsistent, clauseCall, hc]
      · simp [step, solver_new_var, reportedConsistent, clauseCall, hc, Function.update_noteq hr]
  | solve r argv =>
    have hrc : reportedConsistent E h rslv (.solve r argv) = false := rfl
    rw [hrc, if_neg Bool.false_ne_true]
    cases hc : convert_lits argv r with
    | error e => simp [step, solver_solve, hc]
    | ok lits =>
      by_cases hr : rslv = r
      · subst hr
        simp only [step, solver_solve, hc]
        split_ifs <;> simp
      · simp only [step, solver_solve, hc]
        split_ifs <;> simp [Function.update_noteq hr]
  | simplify r =>
    have hrc : reportedConsistent E h rslv (.simplify r) = false := rfl
    rw [hrc, if_neg Bool.false_ne_true]
    cases hc : check_model_available (h r).result false with
    | error e => simp [step, solver_simplify, hc]
    | ok u =>
      by_cases hr : rslv = r
      · subst hr
        simp only [step, solver_simplify, hc]
        split_ifs <;> simp
      · simp only [step, solver_simplify, hc]
        split_ifs <;> simp [Function.update_noteq hr]
  | simplify_db r =>
    have hrc : reportedConsistent E h rslv (.simplify_db r) = false := rfl
    rw [hrc, if_neg Bool.false_ne_true]
    cases hc : check_model_available (h r).result false with
    | error e => simp [step, solver_simplify_db, solver_simplify, hc]
    | ok u =>
      by_cases hr : rslv = r
      · subst hr
        simp only [step, solver_simplify_db, solver_simplify, hc]
        split_ifs <;> simp
      · simp only [step, solver_simplify_db, solver_simplify, hc]
        split_ifs <;> simp [Function.update_noteq hr]
  | ref_var r rvar =>
    simp [step, solver_ref_var_heap, reportedConsistent, clauseCall]
  | value cvar =>
    simp [step, variable_value_heap, reportedConsistent, clauseCall]
  | var_size r => simp [step, solver_var_size, reportedConsistent, clauseCall]
  | clause_size r => simp [step, solver_clause_size, reportedConsistent, clauseCall]
  | solved_p r => simp [step, solver_solved_p, reportedConsistent, clauseCall]
  | satisfied_p r => simp [step, solver_satisfied_p, reportedConsistent, clauseCall]

theorem wrapInt_add_left (x y : Int) : wrapInt (wrapInt x + y) = wrapInt (x + y) := by
  unfold wrapInt
  omega

/-- Along a run the clause counter of a solver is, as an `int`, its value at
the start plus the number of accepted clauses. -/
theorem run_clause_count {σ : Type} (E : Solver σ) (rslv : Nat) (ops : List Op) :
    ∀ h : Heap σ, wrapInt ((run E h ops rslv).clause_count) =
      wrapInt ((h rslv).clause_count + acceptedClauses E h rslv ops) := by
  induction ops with
  | nil => intro h; simp [run, acceptedClauses]
  | cons op ops ih =>
    intro h
    rw [run, ih, step_clause_count, acceptedClauses]
    by_cases hrc : reportedConsistent E h rslv op = true
    · simp only [hrc, if_true]
      rw [wrapInt_add_left]
      congr 1
      push_cast
      ring
    · simp only [hrc, if_false]
      congr 1
      push_cast
      ring

/-- A clause counter that holds an `int` holds one after any run. -/
theorem run_clause_count_int {σ : Type} (E : Solver σ) (rslv : Nat) (ops : List Op) :
    ∀ h : Heap σ, wrapInt (h rslv).clause_count = (h rslv).clause_count →
      wrapInt (run E h ops rslv).clause_count = (run E h ops rslv).clause_count := by
  induction ops with
  | nil => intro h hh; exact hh
  | cons op ops ih =>
    intro h hh
    rw [run]
    apply ih
    rw [step_clause_count]
    split_ifs
    · exact wrapInt_idem _
    · exact hh

/-- Clause counter of a solver after a run from fresh solvers: the number of
accepted clauses, as an `int`. -/
theorem run_fresh_clause_count {σ : Type} (E : Solver σ) (rslv : Nat) (ops : List Op) :
    ((run E (fresh E) ops) rslv).clause_count =
      wrapInt (acceptedClauses E (fresh E) rslv ops) := by
  have h1 := run_clause_count E rslv ops (fresh E)
  have h2 := run_clause_count_int E rslv ops (fresh E) (by simp [fresh, solver_alloc, wrapInt])
  rw [h2] at h1
  rw [h1]
  simp [fresh, solver_alloc]

/-- An `add_clause` that the engine reports consistent returns the solver and
sets NOT_SOLVED_YET. -/
theorem solver_add_clause_accepted {σ : Type} (E : Solver σ) (h : Heap σ) (argv : List VALUE)
    (rslv : Nat) (hq : reportedConsistent E h rslv (.add_clause rslv argv) = true) :
    (solver_add_clause E h argv rslv).1 = .ok (.solver rslv) ∧
    ((solver_add_clause E h argv rslv).2 rslv).result = .NOT_SOLVED_YET := by
  cases hc : convert_lits argv rslv with
  | error e => simp [reportedConsistent, clauseCall, hc] at hq
  | ok lits =>
    have hk : E.okay (E.addClause (h rslv).solver (lits.map toLit)) = true := by
      simpa [reportedConsistent, clauseCall, hc] using hq
    simp [solver_add_clause, wrap_solver_add_clause, hc, hk]

/-- With the naive engine, on a database of unit clauses of variable 0, the
call `add_clause(v0)` is reported consistent and keeps the database so. -/
theorem unit_clause_step (h : Heap Naive) (hi : onlyUnit h) :
    reportedConsistent naive h 0 (.add_clause 0 [var0]) = true ∧
    onlyUnit (step naive h (.add_clause 0 [var0])).2 := by
  obtain ⟨hok, hcl⟩ := hi
  have hconv : convert_lits [var0] 0 = .ok [0] := rfl
  have hn : Naive.neg 0 = 1 := by decide
  have hmem : [Naive.neg 0] ∉ (h 0).solver.clauses := by
    rw [hn]
    intro hm
    have := hcl _ hm
    simp at this
  have hadd : naive.addClause (h 0).solver ([0].map toLit) =
      { (h 0).solver with clauses := [0] :: (h 0).solver.clauses } := by
    simp [naive, hok, toLit, hmem]
  have hokay : naive.okay (naive.addClause (h 0).solver ([0].map toLit)) = true := by
    rw [hadd]
    exact hok
  refine ⟨?_, ?_⟩
  · simp only [reportedConsistent, clauseCall, hconv, hokay]
    decide
  · have hstep : ((step naive h (.add_clause 0 [var0])).2 0).solver =
        naive.addClause (h 0).solver ([0].map toLit) := by
      have hokay1 : naive.okay (naive.addClause (h 0).solver [toLit 0]) = true := hokay
      simp [step, solver_add_clause, hconv, wrap_solver_add_clause, hokay1]
    unfold onlyUnit
    rw [hstep, hadd]
    refine ⟨hok, ?_⟩
    intro c hc
    simp only [List.mem_cons] at hc
    rcases hc with hc | hc
    · exact hc
    · exact hcl c hc

/-- With the naive engine, `n` calls `add_clause(v0)` on such a database are
all reported consistent. -/
theorem unit_clause_run (n : Nat) :
    ∀ h : Heap Naive, onlyUnit h →
      acceptedClauses naive h 0 (List.replicate n (.add_clause 0 [var0])) = n ∧
      onlyUnit (run naive h (List.replicate n (.add_clause 0 [var0]))) := by
  induction n with
  | zero => intro h hi; exact ⟨rfl, hi⟩
  | succ n ih =>
    intro h hi
    obtain ⟨hrc, hnext⟩ := unit_clause_step h hi
    obtain ⟨hacc, hinv⟩ := ih _ hnext
    rw [List.replicate_succ, acceptedClauses, run, hrc, hacc]
    exact ⟨by simp; omega, hinv⟩

/-- After `v = new_var` the database of the naive engine is empty and
consistent. -/
theorem onlyUnit_oneVar : onlyUnit oneVar :=
  ⟨by decide, fun c hc => by
    have he : (oneVar 0).solver.clauses = [] := by decide
    rw [he] at hc
    cases hc⟩

/-- Accepted clauses of `v = new_var` followed by `n` calls `add_clause(v)`,
with the naive engine. -/
theorem unit_clause_accepted (n : Nat) :
    acceptedClauses naive (fresh naive) 0
      (.new_var 0 :: List.replicate n (.add_clause 0 [var0])) = n := by
  rw [acceptedClauses]
  have h1 : reportedConsistent naive (fresh naive) 0 (.new_var 0) = false := rfl
  have h2 : (step naive (fresh naive) (.new_var 0)).2 = oneVar := rfl
  rw [h1, h2, (unit_clause_run n oneVar onlyUnit_oneVar).1]
  simp

/-- State of the database after `v = new_var` followed by `n` calls
`add_clause(v)`, with the naive engine. -/
theorem unit_clause_onlyUnit (n : Nat) :
    onlyUnit (run naive (fresh naive) (.new_var 0 :: List.replicate n (.add_clause 0 [var0]))) := by
  rw [run]
  have h2 : (step naive (fresh naive) (.new_var 0)).2 = oneVar := rfl
  rw [h2]
  exact (unit_clause_run n oneVar onlyUnit_oneVar).2

/-! ## new_var -/

/-- C3: `new_var` fails if and only if the result state is UNSATISFIABLE. There
it raises the "unsatisfied" error and leaves the heap (result state, clause
counter, engine) as it was. In the three other states it returns a Variable
that carries the index returned by the engine's `newVar` and is owned by the
receiving solver, sets the result state to NOT_SOLVED_YET and keeps the clause
counter. -/
theorem solver_new_var_spec {σ : Type} (E : Solver σ) (h : Heap σ) (rslv : Nat) :
    ((∃ e, (solver_new_var E h rslv).1 = .error e) ↔ (h rslv).result = .UNSATISFIABLE) ∧
    solver_new_var E h rslv =
      if (h rslv).result = .UNSATISFIABLE then (.error (.rb_eRuntimeError "unsatisfied"), h)
      else
        (.ok (.data .rb_cVariable ⟨(E.newVar (h rslv).solver).1, rslv⟩),
          Function.update h rslv
            { solver := (E.newVar (h rslv).solver).2, result := .NOT_SOLVED_YET,
              clause_count := (h rslv).clause_count }) := by
  cases hr : (h rslv).result <;>
    simp [solver_new_var, check_model_available, wrap_solver_new_var, hr]

/-! ## convert_lits -/

/-- C8: `convert_lits` succeeds exactly when every item is a Variable or
Literal of the receiving solver; it then yields, in order and in the same
number, the positive literal of each Variable and the stored value of each
Literal. Otherwise the first refused item decides the exception: a TypeError
if it is no Variable or Literal at all, an ArgError if it belongs to another
solver; `add_clause` and `solve` then raise it with the heap (engine, result
state, clause counter) untouched. -/
theorem convert_lits_spec {σ : Type} (E : Solver σ) (h : Heap σ) (argv : List VALUE) (rslv : Nat) :
    ((∃ lits, convert_lits argv rslv = .ok lits) ↔ ∀ v ∈ argv, isHandleOf rslv v = true) ∧
    (match argv.find? (fun v => !isHandleOf rslv v) with
     | none =>
        convert_lits argv rslv = .ok (argv.map litOf) ∧ (argv.map litOf).length = argv.length
     | some x =>
        convert_lits argv rslv = .error (refusal x) ∧
        solver_add_clause E h argv rslv = (.error (refusal x), h) ∧
        solver_solve E h argv rslv = (.error (refusal x), h)) ∧
    (∀ x, refusal x =
      if isHandle x then .rb_eArgError "Variable or Literal of different solver"
      else .rb_eTypeError
        ("wrong argument type " ++ rb_obj_classname x ++ " (expected Variable or Literal)")) ∧
    ∀ m m1, RbError.rb_eTypeError m ≠ RbError.rb_eArgError m1 := by
  have hfind := convert_lits_find rslv argv
  refine ⟨?_, ?_, fun _ => rfl, fun _ _ hne => by cases hne⟩
  · constructor
    · rintro ⟨lits, hl⟩ v hv
      by_contra hb
      have hb1 : (!isHandleOf rslv v) = true := by simpa using hb
      cases hf : argv.find? (fun v => !isHandleOf rslv v) with
      | none =>
        have := List.find?_eq_none.mp hf v hv
        exact this hb1
      | some x =>
        rw [hf] at hfind
        rw [hfind] at hl
        cases hl
    · intro hall
      exact ⟨argv.map litOf, convert_lits_valid rslv argv (List.all_eq_true.mpr hall)⟩
  · cases hf : argv.find? (fun v => !isHandleOf rslv v) with
    | none =>
      rw [hf] at hfind
      exact ⟨hfind, List.length_map _ _⟩
    | some x =>
      rw [hf] at hfind
      simp only at hfind ⊢
      refine ⟨hfind, ?_, ?_⟩
      · simp [solver_add_clause, hfind]
      · simp [solver_solve, hfind]

/-! ## The literal codec -/

/-- C9: for a variable index `v >= 0` with `2*v+1` representable as an `int`,
`wrap_lit_pos_var v = 2*v` and `wrap_lit_neg_var v = 2*v+1`; decoding gives
back `(v, 0)` and `(v, 1)`; the two literals of a variable differ, and the
literals of two such variables coincide only if the variables do. -/
theorem literal_codec_round_trip (v w : Int) (hv0 : 0 ≤ v) (hv1 : 2 * v + 1 ≤ INT_MAX)
    (hw0 : 0 ≤ w) (hw1 : 2 * w + 1 ≤ INT_MAX) :
    wrap_lit_pos_var v = 2 * v ∧ wrap_lit_neg_var v = 2 * v + 1 ∧
    decode (wrap_lit_pos_var v) = (v, 0) ∧ decode (wrap_lit_neg_var v) = (v, 1) ∧
    wrap_lit_pos_var v ≠ wrap_lit_neg_var v ∧
    (wrap_lit_pos_var v = wrap_lit_pos_var w ↔ v = w) ∧
    (wrap_lit_neg_var v = wrap_lit_neg_var w ↔ v = w) ∧
    wrap_lit_pos_var v ≠ wrap_lit_neg_var w := by
  simp only [INT_MAX] at hv1 hw1
  have pv : wrap_lit_pos_var v = 2 * v := by
    show wrapInt (2 * v + 0) = 2 * v
    rw [wrapInt_of_range] <;> omega
  have nv : wrap_lit_neg_var v = 2 * v + 1 := by
    show wrapInt (2 * v + 1) = 2 * v + 1
    rw [wrapInt_of_range] <;> omega
  have pw : wrap_lit_pos_var w = 2 * w := by
    show wrapInt (2 * w + 0) = 2 * w
    rw [wrapInt_of_range] <;> omega
  have nw : wrap_lit_neg_var w = 2 * w + 1 := by
    show wrapInt (2 * w + 1) = 2 * w + 1
    rw [wrapInt_of_range] <;> omega
  rw [pv, nv, pw, nw]
  refine ⟨rfl, rfl, ?_, ?_, by omega, by omega, by omega, by omega⟩
  · simp only [decode, Prod.mk.injEq]
    omega
  · simp only [decode, Prod.mk.injEq]
    omega

theorem literal_codec_round_trip_witness :
    wrap_lit_pos_var 3 = 2 * 3 ∧ wrap_lit_neg_var 3 = 2 * 3 + 1 ∧
    decode (wrap_lit_pos_var 3) = (3, 0) ∧ decode (wrap_lit_neg_var 3) = (3, 1) ∧
    wrap_lit_pos_var 3 ≠ wrap_lit_neg_var 3 ∧
    (wrap_lit_pos_var 3 = wrap_lit_pos_var 5 ↔ (3 : Int) = 5) ∧
    (wrap_lit_neg_var 3 = wrap_lit_neg_var 5 ↔ (3 : Int) = 5) ∧
    wrap_lit_pos_var 3 ≠ wrap_lit_neg_var 5 :=
  literal_codec_round_trip 3 5 (by decide) (by decide) (by decide) (by decide)

/-! ## add_clause and solve -/

/-- C4, amended: `add_clause` with Variables and Literals of the receiving
solver, in any result state and with a clause counter that is an `int` below
`INT_MAX`:
the clause goes to the engine; if the engine then reports the database no
longer consistent the result state becomes UNSATISFIABLE and the clause counter
is unchanged, otherwise the result state becomes NOT_SOLVED_YET and the clause
counter grows by exactly 1. In both cases the solver itself is returned. -/
theorem solver_add_clause_spec {σ : Type} (E : Solver σ) (h : Heap σ) (argv : List VALUE)
    (rslv : Nat) (hv : argv.all (isHandleOf rslv) = true)
    (hlo : -INT_MAX - 1 ≤ (h rslv).clause_count) (hhi : (h rslv).clause_count < INT_MAX) :
    solver_add_clause E h argv rslv =
      (.ok (.solver rslv),
        Function.update h rslv
          (if E.okay (E.addClause (h rslv).solver ((argv.map litOf).map toLit)) then
            { solver := E.addClause (h rslv).solver ((argv.map litOf).map toLit),
              result := .NOT_SOLVED_YET,
              clause_count := (h rslv).clause_count + 1 }
          else
            { solver := E.addClause (h rslv).solver ((argv.map litOf).map toLit),
              result := .UNSATISFIABLE,
              clause_count := (h rslv).clause_count })) := by
  have hw : wrapInt ((h rslv).clause_count + 1) = (h rslv).clause_count + 1 := by
    simp only [INT_MAX] at hlo hhi
    exact wrapInt_of_range _ (by omega) (by omega)
  simp only [solver_add_clause, convert_lits_valid rslv argv hv, wrap_solver_add_clause, hw]
  cases E.okay (E.addClause (h rslv).solver ((argv.map litOf).map toLit)) <;> simp

/-- C4, refuted as stated: `fullCounter` is solver 0 after `v = new_var` and
2147483647 accepted calls `add_clause(v)`; its clause counter is `INT_MAX`. One
more `add_clause(v)` is reported consistent by the engine, returns the solver
and sets NOT_SOLVED_YET, and the `int` counter is then -2147483648, not
2147483648. -/
theorem add_clause_overflow_counterexample :
    [var0].all (isHandleOf 0) = true ∧
    (fullCounter 0).clause_count = INT_MAX ∧
    reportedConsistent naive fullCounter 0 (.add_clause 0 [var0]) = true ∧
    (solver_add_clause naive fullCounter [var0] 0).1 = .ok (.solver 0) ∧
    ((solver_add_clause naive fullCounter [var0] 0).2 0).result = .NOT_SOLVED_YET ∧
    ((solver_add_clause naive fullCounter [var0] 0).2 0).clause_count = -2147483648 := by
  have hinv : onlyUnit fullCounter := unit_clause_onlyUnit 2147483647
  have hrc := (unit_clause_step fullCounter hinv).1
  have hcount : (fullCounter 0).clause_count = INT_MAX := by
    unfold fullCounter
    rw [run_fresh_clause_count, unit_clause_accepted]
    decide
  refine ⟨by decide, hcount, hrc, (solver_add_clause_accepted naive fullCounter [var0] 0 hrc).1,
    (solver_add_clause_accepted naive fullCounter [var0] 0 hrc).2, ?_⟩
  rw [solver_add_clause_count, hrc, if_pos rfl, hcount]
  decide

/-- C5: `solve` with Variables and Literals of the receiving solver, in any
result state: it returns the engine's verdict (true or false); on true the
result state becomes SATISFIED; on false it becomes UNSATISFIABLE when no
assumption was given and UNSATISFIABLE_UNDER_ASSUMPTIONS otherwise. The clause
counter is unchanged. -/
theorem solver_solve_spec {σ : Type} (E : Solver σ) (h : Heap σ) (argv : List VALUE)
    (rslv : Nat) (hv : argv.all (isHandleOf rslv) = true) :
    solver_solve E h argv rslv =
      (.ok (if (E.solve (h rslv).solver ((argv.map litOf).map toLit)).1 then .Qtrue else .Qfalse),
        Function.update h rslv
          { solver := (E.solve (h rslv).solver ((argv.map litOf).map toLit)).2,
            result :=
              if (E.solve (h rslv).solver ((argv.map litOf).map toLit)).1 then .SATISFIED
              else if argv.length = 0 then .UNSATISFIABLE
              else .UNSATISFIABLE_UNDER_ASSUMPTIONS,
            clause_count := (h rslv).clause_count }) := by
  simp only [solver_solve, convert_lits_valid rslv argv hv, wrap_solver_solve]
  cases (E.solve (h rslv).solver ((argv.map litOf).map toLit)).1 <;> simp

/-! ## Model reads -/

/-- C6: for a Variable and the solver that owns it, `solver[var]` and
`var.value` do the same; the read succeeds if and only if the result state is
SATISFIED, and otherwise raises the error of the state: "not solved yet" in
NOT_SOLVED_YET, "unsatisfied" in UNSATISFIABLE, "unsatisfied under assumption"
in UNSATISFIABLE_UNDER_ASSUMPTIONS, the outcomes of the check being pairwise
distinct over the four states. A read never changes the heap. -/
theorem model_read_gating {σ : Type} (E : Solver σ) (h : Heap σ) (cvar : cvariable) :
    solver_ref_var E h cvar.solver (.data .rb_cVariable cvar) = variable_value E h cvar ∧
    ((∃ v, (variable_value E h cvar).1 = .ok v) ↔ (h cvar.solver).result = .SATISFIED) ∧
    (variable_value E h cvar).2 = h ∧
    (match (h cvar.solver).result with
     | .SATISFIED => True
     | .NOT_SOLVED_YET =>
        (variable_value E h cvar).1 = .error (.rb_eRuntimeError "not solved yet")
     | .UNSATISFIABLE =>
        (variable_value E h cvar).1 = .error (.rb_eRuntimeError "unsatisfied")
     | .UNSATISFIABLE_UNDER_ASSUMPTIONS =>
        (variable_value E h cvar).1 = .error (.rb_eRuntimeError "unsatisfied under assumption")) ∧
    ∀ r1 r2, check_model_available r1 false = check_model_available r2 false ↔ r1 = r2 := by
  refine ⟨rfl, ?_, ?_, ?_, ?_⟩
  · cases hr : (h cvar.solver).result with
    | SATISFIED =>
      simp only [variable_value, check_model_available, hr]
      refine ⟨fun _ => trivial, fun _ => ?_⟩
      split <;> exact ⟨_, rfl⟩
    | _ => simp [variable_value, check_model_available, hr]
  · cases hr : (h cvar.solver).result <;>
      simp only [variable_value, check_model_available, hr] <;>
      first
        | rfl
        | (split <;> rfl)
  · cases hr : (h cvar.solver).result <;>
      simp [variable_value, check_model_available, hr]
  · intro r1 r2
    cases r1 <;> cases r2 <;> simp [check_model_available]

theorem solver_add_clause_spec_witness :
    [var0].all (isHandleOf 0) = true ∧ -INT_MAX - 1 ≤ (oneVar 0).clause_count ∧
    (oneVar 0).clause_count < INT_MAX ∧
    solver_add_clause naive oneVar [var0] 0 =
      (.ok (.solver 0),
        Function.update oneVar 0
          (if naive.okay (naive.addClause (oneVar 0).solver (([var0].map litOf).map toLit)) then
            { solver := naive.addClause (oneVar 0).solver (([var0].map litOf).map toLit),
              result := .NOT_SOLVED_YET,
              clause_count := (oneVar 0).clause_count + 1 }
          else
            { solver := naive.addClause (oneVar 0).solver (([var0].map litOf).map toLit),
              result := .UNSATISFIABLE,
              clause_count := (oneVar 0).clause_count })) :=
  ⟨by decide, by decide, by decide,
    solver_add_clause_spec naive oneVar [var0] 0 (by decide) (by decide) (by decide)⟩

theorem solver_solve_spec_witness :
    ([] : List VALUE).all (isHandleOf 0) = true ∧
    (refutedUnder 0).result = .UNSATISFIABLE_UNDER_ASSUMPTIONS ∧
    ((solver_solve naive refutedUnder [] 0).2 0).result = .SATISFIED ∧
    solver_solve naive refutedUnder [] 0 =
      (.ok (if (naive.solve (refutedUnder 0).solver (([].map litOf).map toLit)).1 then .Qtrue
          else .Qfalse),
        Function.update refutedUnder 0
          { solver := (naive.solve (refutedUnder 0).solver (([].map litOf).map toLit)).2,
            result :=
              if (naive.solve (refutedUnder 0).solver (([].map litOf).map toLit)).1 then .SATISFIED
              else if ([] : List VALUE).length = 0 then .UNSATISFIABLE
              else .UNSATISFIABLE_UNDER_ASSUMPTIONS,
            clause_count := (refutedUnder 0).clause_count }) :=
  ⟨by decide, by decide, by decide, solver_solve_spec naive refutedUnder [] 0 (by decide)⟩

/-! ## Calls on a solver in UNSATISFIABLE -/

/-- C2, refuted as stated: on a solver in UNSATISFIABLE, `new_var` raises
"unsatisfied", but `add_clause`, `<<` and `solve` return normally; they reach
the engine (the scripted engine has given one more answer) and write the
result state and the clause counter from its answer. -/
theorem unsat_gate_counterexample :
    (refuted 0).result = .UNSATISFIABLE ∧
    (solver_new_var naive refuted 0).1 = .error (.rb_eRuntimeError "unsatisfied") ∧
    (solver_add_clause naive refuted [var0] 0).1 = .ok (.solver 0) ∧
    (solver_add_clause_2 naive refuted 0 (.array [var0])).1 = .ok (.solver 0) ∧
    (solver_solve naive refuted [] 0).1 = .ok .Qfalse ∧
    (solver_solve naive refuted [var0] 0).1 = .ok .Qfalse ∧
    (fickleRefuted 0).result = .UNSATISFIABLE ∧ (fickleRefuted 0).clause_count = 0 ∧
    ((solver_add_clause fickleEngine fickleRefuted [] 0).2 0).solver.tape ≠
      (fickleRefuted 0).solver.tape ∧
    ((solver_add_clause fickleEngine fickleRefuted [] 0).2 0).result = .NOT_SOLVED_YET ∧
    ((solver_add_clause fickleEngine fickleRefuted [] 0).2 0).clause_count = 1 ∧
    ((solver_solve fickleEngine fickleRefuted [] 0).2 0).solver.tape ≠
      (fickleRefuted 0).solver.tape ∧
    ((solver_solve fickleEngine fickleRefuted [] 0).2 0).result = .SATISFIED :=
  ⟨by decide, rfl, rfl, rfl, rfl, rfl, by decide, by decide, by decide, by decide, by decide,
    by decide, by decide⟩

/-- C2, amended: on a solver in UNSATISFIABLE only `new_var` is rejected, with
the "unsatisfied" error and the heap untouched. `add_clause`, `<<` and `solve`
with Variables and Literals of the solver are not gated by the result state:
they hand the converted literals to the engine and return normally (the solver
itself, resp. the verdict). When the engine reports the database inconsistent
(resp. answers false to a solve without assumptions) the result state stays
UNSATISFIABLE, and the clause counter is unchanged. -/
theorem unsat_gate_amended {σ : Type} (E : Solver σ) (h : Heap σ) (argv : List VALUE)
    (rslv : Nat) (hr : (h rslv).result = .UNSATISFIABLE)
    (hv : argv.all (isHandleOf rslv) = true) :
    solver_new_var E h rslv = (.error (.rb_eRuntimeError "unsatisfied"), h) ∧
    (solver_add_clause E h argv rslv).1 = .ok (.solver rslv) ∧
    ((solver_add_clause E h argv rslv).2 rslv).solver =
      E.addClause (h rslv).solver ((argv.map litOf).map toLit) ∧
    (if E.okay (E.addClause (h rslv).solver ((argv.map litOf).map toLit)) then True
     else
      ((solver_add_clause E h argv rslv).2 rslv).result = .UNSATISFIABLE ∧
      ((solver_add_clause E h argv rslv).2 rslv).clause_count = (h rslv).clause_count) ∧
    solver_add_clause_2 E h rslv (.array argv) = solver_add_clause E h argv rslv ∧
    (solver_solve E h argv rslv).1 =
      .ok (if (E.solve (h rslv).solver ((argv.map litOf).map toLit)).1 then .Qtrue else .Qfalse) ∧
    ((solver_solve E h argv rslv).2 rslv).solver =
      (E.solve (h rslv).solver ((argv.map litOf).map toLit)).2 ∧
    (if (E.solve (h rslv).solver ((argv.map litOf).map toLit)).1 then True
     else if argv.length = 0 then ((solver_solve E h argv rslv).2 rslv).result = .UNSATISFIABLE
     else True) ∧
    ((solver_solve E h argv rslv).2 rslv).clause_count = (h rslv).clause_count := by
  have hc := convert_lits_valid rslv argv hv
  refine ⟨?_, ?_, ?_, ?_, rfl, ?_, ?_, ?_, ?_⟩
  · simp [solver_new_var, check_model_available, hr]
  · simp only [solver_add_clause, hc, wrap_solver_add_clause]
    cases E.okay (E.addClause (h rslv).solver ((argv.map litOf).map toLit)) <;> simp
  · simp only [solver_add_clause, hc, wrap_solver_add_clause]
    cases E.okay (E.addClause (h rslv).solver ((argv.map litOf).map toLit)) <;> simp
  · simp only [solver_add_clause, hc, wrap_solver_add_clause]
    cases E.okay (E.addClause (h rslv).solver ((argv.map litOf).map toLit)) <;> simp
  · simp only [solver_solve, hc, wrap_solver_solve]
    cases (E.solve (h rslv).solver ((argv.map litOf).map toLit)).1 <;> simp
  · simp only [solver_solve, hc, wrap_solver_solve]
    cases (E.solve (h rslv).solver ((argv.map litOf).map toLit)).1 <;> simp
  · simp only [solver_solve, hc, wrap_solver_solve]
    cases (E.solve (h rslv).solver ((argv.map litOf).map toLit)).1 <;> simp
  · simp only [solver_solve, hc, wrap_solver_solve]
    cases (E.solve (h rslv).solver ((argv.map litOf).map toLit)).1 <;> simp

theorem unsat_gate_amended_witness :
    (refuted 0).result = .UNSATISFIABLE ∧ [var0].all (isHandleOf 0) = true ∧
    solver_new_var naive refuted 0 = (.error (.rb_eRuntimeError "unsatisfied"), refuted) ∧
    (solver_add_clause naive refuted [var0] 0).1 = .ok (.solver 0) :=
  ⟨by decide, by decide,
    (unsat_gate_amended naive refuted [var0] 0 (by decide) (by decide)).1,
    (unsat_gate_amended naive refuted [var0] 0 (by decide) (by decide)).2.1⟩

/-! ## What a successful read returns -/

/-- C1, the code at the failing input. With the naive engine, after
`v = new_var; add_clause(v); add_clause(-v)` solver 0 is in UNSATISFIABLE. A
`solve(v)` is then answered false and, carrying an assumption, sets the result
state to UNSATISFIABLE_UNDER_ASSUMPTIONS; after it `new_var` is accepted and
returns a Variable, and the result state is NOT_SOLVED_YET. -/
theorem unsat_left_by_assumption_solve :
    (refuted 0).result = .UNSATISFIABLE ∧
    (solver_solve naive refuted [var0] 0).1 = .ok .Qfalse ∧
    (refutedThenAssumed 0).result = .UNSATISFIABLE_UNDER_ASSUMPTIONS ∧
    (solver_new_var naive refutedThenAssumed 0).1 = .ok (.data .rb_cVariable ⟨1, 0⟩) ∧
    ((solver_new_var naive refutedThenAssumed 0).2 0).result = .NOT_SOLVED_YET :=
  ⟨by decide, rfl, by decide, rfl, by decide⟩

/-! ## The clause counter -/

/-- C7, refuted as stated: with the naive engine, after `v = new_var` and
2147483648 calls `add_clause(v)` on a fresh solver, all 2147483648 of them
reported consistent, the `int` clause counter, and what `clause_size` returns,
is -2147483648. -/
theorem clause_count_overflow_counterexample :
    acceptedClauses naive (fresh naive) 0
      (.new_var 0 :: List.replicate 2147483648 (.add_clause 0 [var0])) = 2147483648 ∧
    ((run naive (fresh naive)
      (.new_var 0 :: List.replicate 2147483648 (.add_clause 0 [var0]))) 0).clause_count =
      -2147483648 ∧
    (solver_clause_size naive
      (run naive (fresh naive) (.new_var 0 :: List.replicate 2147483648 (.add_clause 0 [var0])))
      0).1 = .ok (.num (-2147483648)) := by
  have hacc := unit_clause_accepted 2147483648
  have hcount : ((run naive (fresh naive)
      (.new_var 0 :: List.replicate 2147483648 (.add_clause 0 [var0]))) 0).clause_count =
      -2147483648 := by
    rw [run_fresh_clause_count, hacc]
    decide
  refine ⟨hacc, hcount, ?_⟩
  simp only [solver_clause_size, hcount]

/-- C7, amended: the clause counter of a freshly allocated solver is 0; after any run
of calls from fresh solvers the counter, and what `clause_size` returns, equals
the number of `add_clause` / `<<` calls on the solver for which the engine
reported the database still consistent (as long as that number is an `int`; in
general it is that number as an `int`); a call adds 1 to it exactly when it is
such a call, and every call that is not an `add_clause` / `<<`, `solve`
included, leaves it as it was. -/
theorem clause_count_invariant {σ : Type} (E : Solver σ) (rslv : Nat) (ops : List Op)
    (hb : (acceptedClauses E (fresh E) rslv ops : Int) ≤ INT_MAX) :
    (solver_alloc E).clause_count = 0 ∧
    ((run E (fresh E) ops) rslv).clause_count = acceptedClauses E (fresh E) rslv ops ∧
    (solver_clause_size E (run E (fresh E) ops) rslv).1 =
      .ok (.num (acceptedClauses E (fresh E) rslv ops)) ∧
    (∀ ops1, ((run E (fresh E) ops1) rslv).clause_count =
      wrapInt (acceptedClauses E (fresh E) rslv ops1)) ∧
    (∀ h op, ((step E h op).2 rslv).clause_count =
      if reportedConsistent E h rslv op then wrapInt ((h rslv).clause_count + 1)
      else (h rslv).clause_count) ∧
    ∀ h op, (clauseCall op).isSome = true ∨
      ((step E h op).2 rslv).clause_count = (h rslv).clause_count := by
  have hgen : ∀ ops1, ((run E (fresh E) ops1) rslv).clause_count =
      wrapInt (acceptedClauses E (fresh E) rslv ops1) := by
    intro ops1
    have h1 := run_clause_count E rslv ops1 (fresh E)
    have h2 := run_clause_count_int E rslv ops1 (fresh E) (by simp [fresh, solver_alloc, wrapInt])
    rw [h2] at h1
    rw [h1]
    simp [fresh, solver_alloc]
  have hcount : ((run E (fresh E) ops) rslv).clause_count =
      acceptedClauses E (fresh E) rslv ops := by
    rw [hgen]
    simp only [INT_MAX] at hb
    exact wrapInt_of_range _ (by omega) (by omega)
  refine ⟨rfl, hcount, ?_, hgen, fun h op => step_clause_count E h rslv op, ?_⟩
  · simp only [solver_clause_size, hcount]
  · intro h op
    by_cases hcc : (clauseCall op).isSome = true
    · exact Or.inl hcc
    · right
      rw [step_clause_count]
      have : reportedConsistent E h rslv op = false := by
        cases hco : clauseCall op with
        | none => simp [reportedConsistent, hco]
        | some x => simp [hco] at hcc
      simp [this]

theorem clause_count_invariant_witness :
    (acceptedClauses naive (fresh naive) 0
      [.new_var 0, .add_clause 0 [var0], .solve 0 [neg0], .solve 0 [], .add_clause 0 [foreign0],
        .add_clause_2 0 (.array [var0, pos0]), .add_clause 0 [neg0], .new_var 0] : Int)
      ≤ INT_MAX ∧
    ((run naive (fresh naive)
      [.new_var 0, .add_clause 0 [var0], .solve 0 [neg0], .solve 0 [], .add_clause 0 [foreign0],
        .add_clause_2 0 (.array [var0, pos0]), .add_clause 0 [neg0], .new_var 0]) 0).clause_count
      = 2 :=
  ⟨by decide, (clause_count_invariant naive 0 _ (by decide)).2.1⟩

/-! ## simplify -/

/-- C11: `simplify` passes the same check as a model read, so it succeeds, and
reaches the engine, if and only if the result state is SATISFIED; in
NOT_SOLVED_YET, UNSATISFIABLE and UNSATISFIABLE_UNDER_ASSUMPTIONS it raises the
error of the state, the one a read of a Variable of the solver raises, and
leaves the heap as it was. In SATISFIED it returns what the engine's `okay`
says after `simplify`: false with the result state set to UNSATISFIABLE, or
true with the result state still SATISFIED. The clause counter is never
changed, and `simplify_db` is the same call. -/
theorem solver_simplify_spec {σ : Type} (E : Solver σ) (h : Heap σ) (rslv : Nat) (v : Int) :
    solver_simplify E h rslv =
      (match (h rslv).result with
       | .SATISFIED =>
          if E.okay (E.simplify (h rslv).solver) then
            (.ok .Qtrue,
              Function.update h rslv
                { solver := E.simplify (h rslv).solver, result := .SATISFIED,
                  clause_count := (h rslv).clause_count })
          else
            (.ok .Qfalse,
              Function.update h rslv
                { solver := E.simplify (h rslv).solver, result := .UNSATISFIABLE,
                  clause_count := (h rslv).clause_count })
       | .NOT_SOLVED_YET => (.error (.rb_eRuntimeError "not solved yet"), h)
       | .UNSATISFIABLE => (.error (.rb_eRuntimeError "unsatisfied"), h)
       | .UNSATISFIABLE_UNDER_ASSUMPTIONS =>
          (.error (.rb_eRuntimeError "unsatisfied under assumption"), h)) ∧
    ((∃ r, (solver_simplify E h rslv).1 = .ok r) ↔ (h rslv).result = .SATISFIED) ∧
    (∀ e, (solver_simplify E h rslv).1 = .error e ↔
      (variable_value E h ⟨v, rslv⟩).1 = .error e) ∧
    ((solver_simplify E h rslv).2 rslv).clause_count = (h rslv).clause_count ∧
    solver_simplify_db E h rslv = solver_simplify E h rslv := by
  refine ⟨?_, ?_, ?_, ?_, rfl⟩
  · cases hr : (h rslv).result with
    | SATISFIED =>
      cases hk : E.okay (E.simplify (h rslv).solver) <;>
        simp [solver_simplify, check_model_available, wrap_solver_simplify, hr, hk]
    | _ => simp [solver_simplify, check_model_available, hr]
  · cases hr : (h rslv).result with
    | SATISFIED =>
      cases hk : E.okay (E.simplify (h rslv).solver) <;>
        simp [solver_simplify, check_model_available, wrap_solver_simplify, hr, hk]
    | _ => simp [solver_simplify, check_model_available, hr]
  · intro e
    cases hr : (h rslv).result with
    | SATISFIED =>
      have hv : ∀ e, (variable_value E h ⟨v, rslv⟩).1 ≠ .error e := by
        intro e1
        simp only [variable_value, check_model_available, hr]
        split <;> simp
      cases hk : E.okay (E.simplify (h rslv).solver) <;>
        simp [solver_simplify, check_model_available, wrap_solver_simplify, hr, hk, hv]
    | _ => simp [solver_simplify, variable_value, check_model_available, hr]
  · cases hr : (h rslv).result with
    | SATISFIED =>
      cases hk : E.okay (E.simplify (h rslv).solver) <;>
        simp [solver_simplify, check_model_available, wrap_solver_simplify, hr, hk]
    | _ => simp [solver_simplify, check_model_available, hr]

end MiniSat
